import Mathlib

/-!
Verification of the Stripe webhook server (`src/index.js`) against its
natural-language specification.

The development shallowly embeds the parts of the program the claims are
about:

* the idempotent event store `storeWebhookEvent` (the `INSERT ... ON
  CONFLICT (event_id) DO NOTHING RETURNING id` statement and the
  surrounding JS function);
* the `POST /webhook` handler's control flow (signature-presence check,
  secret check, verification, best-effort storage, acknowledgment);
* the `GET /events` handler (JS `parseInt(q) || default` parameter
  parsing, the optional `WHERE event_type = $1` filter guarded by JS
  truthiness, `ORDER BY created_at DESC LIMIT $ OFFSET $`);
* the `GET /events/:eventId` handler.

The database is modelled as a list of rows in insertion order plus the
next value of the `SERIAL` surrogate-id sequence.  Timestamps are `Nat`.
`ORDER BY created_at DESC` carries no secondary sort key, so the order of
rows with equal `created_at` is not determined by the query; a query
result is therefore modelled by the predicate `legalOrder`: any
permutation of the selected rows that is sorted by `created_at`
descending is a possible result.
-/

namespace StripeWebhook

/-- A verified Stripe event as returned by the signature-verification
primitive: an external id and a type string (the rest of the body is
opaque to the store and is represented by the event value itself). -/
structure StripeEvent where
  id : String
  type : String
  deriving DecidableEq

/-- One row of the `stripe_webhook_events` table.  `event_data` holds the
full event body (`JSON.stringify(event)` in the source, opaque here);
`created_at` defaults to the insert time and `processed_at` is set to
`CURRENT_TIMESTAMP` by the insert, so both equal the insert instant. -/
structure Row where
  id : Nat
  event_id : String
  event_type : String
  event_data : StripeEvent
  created_at : Nat
  processed_at : Nat
  deriving DecidableEq

/-- The table state: rows in insertion order, plus the next value of the
`SERIAL` primary-key sequence. -/
structure DB where
  rows : List Row
  nextId : Nat
  deriving DecidableEq

/-- Whether a row with the given external event id exists (the condition
the `ON CONFLICT (event_id)` clause detects, via the unique index). -/
def hasId (db : DB) (eventId : String) : Bool :=
  db.rows.any (fun r => r.event_id == eventId)

/-- Number of rows holding the given external event id.  The database's
unique constraint keeps this at most 1. -/
def countId (db : DB) (eventId : String) : Nat :=
  db.rows.countP (fun r => r.event_id == eventId)

/-- The candidate row built by the `INSERT` values list:
`(event_id, event_type, event_data, processed_at) = (event.id, event.type,
JSON.stringify(event), CURRENT_TIMESTAMP)` with `id` drawn from the
sequence and `created_at` defaulted to the same instant. -/
def mkRow (e : StripeEvent) (now : Nat) (db : DB) : Row :=
  ⟨db.nextId, e.id, e.type, e, now, now⟩

/-- `storeWebhookEvent` from `src/index.js`: a single
`INSERT ... ON CONFLICT (event_id) DO NOTHING RETURNING id`.  On a fresh
id it inserts a row and returns the new surrogate id (`result.rows[0].id`);
on a conflict no row is inserted, `RETURNING` yields no row, and the JS
function returns `null` (`none` here).  The `SERIAL` sequence advances in
either case, since `nextval` is evaluated for the candidate row before
conflict detection. -/
def storeWebhookEvent (e : StripeEvent) (now : Nat) (db : DB) :
    Option Nat × DB :=
  if hasId db e.id then
    (none, ⟨db.rows, db.nextId + 1⟩)
  else
    (some db.nextId, ⟨db.rows ++ [mkRow e now db], db.nextId + 1⟩)

/-- JSON-ish response bodies produced by the handlers. -/
inductive Body where
  /-- the webhook acknowledgment object with received set to true -/
  | ack (eventId eventType : String)
  /-- an error object carrying a code and a message -/
  | errObj (code message : String)
  /-- an error object carrying only a message -/
  | errMsg (message : String)
  /-- the events-list object of the events endpoint -/
  | events (rows : List Row) (count : Nat) (limit offset : Int)
  /-- a single row, as returned by the get-by-id endpoint -/
  | row (r : Row)
  deriving DecidableEq

/-- An HTTP response: status code and JSON body.  `res.json(x)` without a
prior `res.status(...)` responds with status 200. -/
structure HttpResponse where
  status : Nat
  body : Body
  deriving DecidableEq

/-- What one run of the `POST /webhook` handler did: the response it
sent, whether `storeWebhookEvent` was invoked, and the resulting table
state. -/
structure HandlerTrace where
  response : HttpResponse
  storeCalled : Bool
  db : DB
  deriving DecidableEq

/-- The `POST /webhook` handler of `src/index.js`.

`sig` is the `stripe-signature` header (`none` when absent), `secret`
the configured `STRIPE_WEBHOOK_SECRET` (`none` when unset).  `vr` is the
outcome of the external verification primitive
`stripe.webhooks.constructEvent` for this request's raw body: the
verified event, or the thrown error's message.  `sb` is the behaviour of
the store call for this request: `.ok` is a completed
`storeWebhookEvent` run, `.error` a thrown storage error (for example an
unreachable database); the handler catches it and continues
(`// Continue processing even if DB storage fails`).

The handler checks the header first, then the secret, then verifies,
then stores best-effort, and finally acknowledges with
`res.json(obj received true, eventId, eventType)`. -/
def webhookHandler (sig : Option String) (secret : Option String)
    (vr : Except String StripeEvent)
    (sb : DB → Except Unit (Option Nat × DB)) (db : DB) : HandlerTrace :=
  match sig with
  | none =>
      ⟨⟨400, .errObj "400" "No stripe-signature header value was provided."⟩,
        false, db⟩
  | some _ =>
    match secret with
    | none => ⟨⟨500, .errObj "500" "Webhook secret not configured"⟩, false, db⟩
    | some _ =>
      match vr with
      | .error msg =>
          ⟨⟨400, .errObj "400"
              ("Webhook signature verification failed: " ++ msg)⟩,
            false, db⟩
      | .ok e =>
        match sb db with
        | .error _ => ⟨⟨200, .ack e.id e.type⟩, true, db⟩
        | .ok (_, db2) => ⟨⟨200, .ack e.id e.type⟩, true, db2⟩

/-- The store call as performed against a reachable database: a
completed `storeWebhookEvent` run. -/
def storeCall (e : StripeEvent) (now : Nat) (db : DB) :
    Except Unit (Option Nat × DB) :=
  .ok (storeWebhookEvent e now db)

/- ### The GET /events handler -/

/-- JS whitespace accepted by `parseInt` before the number. -/
def isJsWs (c : Char) : Bool :=
  c == ' ' || c == '\t' || c == '\n' || c == '\r'

/-- Decimal value of a digit character. -/
def digitVal (c : Char) : Nat := c.toNat - '0'.toNat

/-- Hexadecimal digit test, as accepted by JS `parseInt` radix 16. -/
def isHexDig (c : Char) : Bool :=
  c.isDigit || ('a' ≤ c && c ≤ 'f') || ('A' ≤ c && c ≤ 'F')

/-- Value of a hexadecimal digit character. -/
def hexVal (c : Char) : Nat :=
  if c.isDigit then digitVal c
  else if 'a' ≤ c && c ≤ 'f' then c.toNat - 'a'.toNat + 10
  else c.toNat - 'A'.toNat + 10

/-- Fold a digit list into a number in the given base. -/
def natOfDigits (base : Nat) (val : Char → Nat) (cs : List Char) : Nat :=
  cs.foldl (fun acc c => acc * base + val c) 0

/-- JS `parseInt(s)`: skip leading whitespace, optional sign, an optional
`0x`/`0X` prefix switching to base 16, then the longest run of digits;
`NaN` (here `none`) when no digit follows. -/
def parseIntJS (s : String) : Option Int :=
  let cs := s.toList.dropWhile isJsWs
  let signed : Bool × List Char :=
    match cs with
    | '-' :: rest => (true, rest)
    | '+' :: rest => (false, rest)
    | _ => (false, cs)
  let based : Nat × (Char → Nat) × List Char :=
    match signed.2 with
    | '0' :: 'x' :: rest => (16, hexVal, rest)
    | '0' :: 'X' :: rest => (16, hexVal, rest)
    | _ => (10, digitVal, signed.2)
  let ds := based.2.2.takeWhile
    (fun c => if based.1 == 16 then isHexDig c else c.isDigit)
  if ds.isEmpty then none
  else
    let n : Nat := natOfDigits based.1 based.2.1 ds
    some (if signed.1 then -(n : Int) else (n : Int))

/-- `parseInt(req.query.x)`: an absent query parameter is `undefined`,
and `parseInt(undefined)` is `NaN`. -/
def parseQueryInt (p : Option String) : Option Int :=
  match p with
  | none => none
  | some s => parseIntJS s

/-- JS `v || d`: `NaN` (here `none`) and `0` are falsy, every other
number is truthy and taken as is. -/
def jsOr (v : Option Int) (d : Int) : Int :=
  match v with
  | none => d
  | some n => if n = 0 then d else n

/-- The row selection of the events query.  The `WHERE event_type = $1`
clause is added only when `req.query.type` is truthy, so both an absent
parameter and the empty string select all rows. -/
def selectRows (db : DB) (typeP : Option String) : List Row :=
  match typeP with
  | none => db.rows
  | some t => if t = "" then db.rows
              else db.rows.filter (fun r => r.event_type == t)

/-- Descending order on `created_at` — the comparison `ORDER BY
created_at DESC` establishes between adjacent result rows. -/
def createdDesc (a b : Row) : Prop := b.created_at ≤ a.created_at

instance : DecidableRel createdDesc := fun a b =>
  inferInstanceAs (Decidable (b.created_at ≤ a.created_at))

/-- A possible result of `ORDER BY created_at DESC` over `rows`: any
permutation of the selected rows that is sorted by `created_at`
descending.  The query has no secondary sort key, so every such
permutation is a legal result. -/
def legalOrder (rows res : List Row) : Prop :=
  res.Perm rows ∧ res.Sorted createdDesc

/-- `LIMIT limit OFFSET offset` applied to an ordered result. -/
def pageOf (res : List Row) (limit offset : Nat) : List Row :=
  (res.drop offset).take limit

/-- `LIMIT $ OFFSET $` with the caller-supplied integers.  PostgreSQL
rejects a negative `LIMIT` or `OFFSET` with an error, which the handler's
catch block turns into a 500 response. -/
def sqlLimitOffset (res : List Row) (limit offset : Int) :
    Except String (List Row) :=
  if limit < 0 then .error "LIMIT must not be negative"
  else if offset < 0 then .error "OFFSET must not be negative"
  else .ok (pageOf res limit.toNat offset.toNat)

/-- The `GET /events` handler of `src/index.js`, given an ordered query
result `ord` (a legal result of `ORDER BY created_at DESC` over the
selected rows; see `legalOrder` and `selectRows`).  Parameters are
parsed as `parseInt(q) || default` with defaults 50 and 0; the response
is the page with `count: result.rows.length`, or a 500 error when the
query fails. -/
def eventsResponse (limitP offsetP : Option String) (ord : List Row) :
    HttpResponse :=
  let limit := jsOr (parseQueryInt limitP) 50
  let offset := jsOr (parseQueryInt offsetP) 0
  match sqlLimitOffset ord limit offset with
  | .error _ => ⟨500, .errMsg "Failed to fetch events"⟩
  | .ok page => ⟨200, .events page page.length limit offset⟩

/-- The `GET /events/:eventId` handler: `SELECT * ... WHERE event_id =
$1`; 404 when no row matches, otherwise the first (unique) row. -/
def getByIdResponse (db : DB) (eventId : String) : HttpResponse :=
  match db.rows.find? (fun r => r.event_id == eventId) with
  | none => ⟨404, .errMsg "Event not found"⟩
  | some r => ⟨200, .row r⟩

/-- The ordering claimed by the spec for list results: `received_at`
descending with ties broken by surrogate id descending.  The query in
the source has no such secondary sort key. -/
def tieDesc (a b : Row) : Prop :=
  b.created_at < a.created_at ∨
    (a.created_at = b.created_at ∧ b.id ≤ a.id)

instance : DecidableRel tieDesc := fun a b =>
  inferInstanceAs (Decidable (b.created_at < a.created_at ∨
    (a.created_at = b.created_at ∧ b.id ≤ a.id)))

/- ### Concrete rows used in counterexamples and witnesses -/

/-- A sample verified event. -/
def evA : StripeEvent := ⟨"evt_a", "payment_intent.succeeded"⟩

/-- A second sample verified event. -/
def evB : StripeEvent := ⟨"evt_b", "customer.created"⟩

/-- A third sample verified event. -/
def evC : StripeEvent := ⟨"evt_c", "customer.created"⟩

/-- A stored row for `evA`, received at instant 5. -/
def rowA : Row := ⟨1, "evt_a", "payment_intent.succeeded", evA, 5, 5⟩

/-- A stored row for `evB`, received at the same instant 5 (a
`created_at` tie with `rowA`). -/
def rowB : Row := ⟨2, "evt_b", "customer.created", evB, 5, 5⟩

/-- A stored row for `evC`, received later, at instant 9. -/
def rowC : Row := ⟨3, "evt_c", "customer.created", evC, 9, 9⟩

/-- A table holding only `rowA`. -/
def dbA : DB := ⟨[rowA], 2⟩

/-- A table holding `rowC` then `rowA` (distinct `created_at` values,
already in descending order). -/
def dbCA : DB := ⟨[rowC, rowA], 4⟩

/-- A table holding `rowA` then `rowB`, whose `created_at` values tie. -/
def dbAB : DB := ⟨[rowA, rowB], 3⟩

/- ### Helper lemmas about the store -/

lemma hasId_true_iff (db : DB) (i : String) :
    hasId db i = true ↔ 0 < countId db i := by
  unfold hasId countId
  simp [List.any_eq_true, List.countP_pos_iff]

lemma countId_eq_zero_of_not_hasId (db : DB) (i : String)
    (h : hasId db i = false) : countId db i = 0 := by
  unfold hasId at h
  unfold countId
  simp only [List.any_eq_false] at h
  simpa [List.countP_eq_zero] using h

/- ### Claim theorems -/

/-- C2.  Acknowledgment is independent of storage: whenever signature
verification succeeds, the webhook handler responds 200 with
`received: true` and the verified event's id and type, whatever the
store call does — fresh insert, duplicate no-op, or a thrown storage
error; the storage outcome never changes the HTTP response. -/
theorem webhook_ack_independent_of_storage (s w : String) (e : StripeEvent)
    (sb : DB → Except Unit (Option Nat × DB)) (db : DB) :
    (webhookHandler (some s) (some w) (Except.ok e) sb db).response =
      ⟨200, Body.ack e.id e.type⟩ := by
  unfold webhookHandler
  rcases sb db with _ | ⟨_, _⟩ <;> rfl

/-- C3.  Missing-signature short-circuit: with no `stripe-signature`
header the handler answers 400 immediately — the response does not
depend on the configured secret, the verification outcome or the store
behaviour, `storeWebhookEvent` is never invoked, and the table state is
unchanged. -/
theorem webhook_missing_signature (secret : Option String)
    (vr : Except String StripeEvent)
    (sb : DB → Except Unit (Option Nat × DB)) (db : DB) :
    webhookHandler none secret vr sb db =
      ⟨⟨400, Body.errObj "400"
          "No stripe-signature header value was provided."⟩, false, db⟩ :=
  rfl

/-- C4.  Missing secret is a server error distinct from an invalid
signature: with a signature header present, an unconfigured secret
yields status 500 (whatever the verification outcome would be), a
failed verification with a configured secret yields status 400, and the
two statuses differ. -/
theorem webhook_secret_error_distinct (s w m : String)
    (vr : Except String StripeEvent)
    (sb : DB → Except Unit (Option Nat × DB)) (db : DB) :
    (webhookHandler (some s) none vr sb db).response.status = 500 ∧
    (webhookHandler (some s) (some w) (Except.error m) sb db).response.status
      = 400 ∧
    (500 : Nat) ≠ 400 :=
  ⟨rfl, rfl, by decide⟩

/-- C1.  Storing is idempotent on the external event id: starting from a
table respecting the unique constraint (at most one row per event id),
storing the same verified event twice leaves exactly one row with that
`event_id`; the second call inserts no row (the row list is unchanged)
and returns `none` (the JS function's `null` duplicate outcome) rather
than a new surrogate id, and no error is raised on the conflict. -/
theorem store_idempotent (e : StripeEvent) (n1 n2 : Nat) (db : DB)
    (h : countId db e.id ≤ 1) :
    (storeWebhookEvent e n2 (storeWebhookEvent e n1 db).2).1 = none ∧
    (storeWebhookEvent e n2 (storeWebhookEvent e n1 db).2).2.rows =
      (storeWebhookEvent e n1 db).2.rows ∧
    countId (storeWebhookEvent e n2 (storeWebhookEvent e n1 db).2).2 e.id
      = 1 := by
  cases hh : hasId db e.id with
  | true =>
    have h1 : 0 < countId db e.id := (hasId_true_iff db e.id).mp hh
    have hstep : storeWebhookEvent e n1 db = (none, ⟨db.rows, db.nextId + 1⟩) := by
      simp [storeWebhookEvent, hh]
    have hh2 : hasId ⟨db.rows, db.nextId + 1⟩ e.id = true := hh
    have hstep2 : storeWebhookEvent e n2 (⟨db.rows, db.nextId + 1⟩ : DB) =
        (none, ⟨db.rows, db.nextId + 2⟩) := by
      simp [storeWebhookEvent, hh2]
    have hcnt : countId (⟨db.rows, db.nextId + 2⟩ : DB) e.id = countId db e.id := rfl
    rw [hstep, hstep2]
    refine ⟨rfl, rfl, ?_⟩
    rw [hcnt]
    omega
  | false =>
    have h0 : countId db e.id = 0 := countId_eq_zero_of_not_hasId db e.id hh
    have hstep : storeWebhookEvent e n1 db =
        (some db.nextId, ⟨db.rows ++ [mkRow e n1 db], db.nextId + 1⟩) := by
      simp [storeWebhookEvent, hh]
    have hh2 : hasId ⟨db.rows ++ [mkRow e n1 db], db.nextId + 1⟩ e.id = true := by
      unfold hasId mkRow
      simp
    have hstep2 : storeWebhookEvent e n2
        (⟨db.rows ++ [mkRow e n1 db], db.nextId + 1⟩ : DB) =
        (none, ⟨db.rows ++ [mkRow e n1 db], db.nextId + 2⟩) := by
      simp [storeWebhookEvent, hh2]
    have hcnt : countId (⟨db.rows ++ [mkRow e n1 db], db.nextId + 2⟩ : DB) e.id
        = countId db e.id + 1 := by
      unfold countId mkRow
      simp [List.countP_append, List.countP_cons]
    rw [hstep, hstep2]
    refine ⟨rfl, rfl, ?_⟩
    rw [hcnt, h0]

/-- C1 witness: storing `evA` twice into a table already respecting the
unique constraint. -/
theorem store_idempotent_witness :
    (storeWebhookEvent evA 7 (storeWebhookEvent evA 6 dbA).2).1 = none ∧
    (storeWebhookEvent evA 7 (storeWebhookEvent evA 6 dbA).2).2.rows =
      (storeWebhookEvent evA 6 dbA).2.rows ∧
    countId (storeWebhookEvent evA 7 (storeWebhookEvent evA 6 dbA).2).2 evA.id
      = 1 :=
  store_idempotent evA 6 7 dbA (by decide)

/-- C8.  Stored rows are immutable: a store call preserves every
existing row unchanged — the resulting row list is either the old list
or the old list with one new row appended, and a delivery whose event id
is already present leaves the row list exactly as it was (payload and
timestamps of the original row intact).  The read handlers
(`eventsResponse`, `getByIdResponse`, the health check) are pure
functions of the state and provide no update or delete path. -/
theorem stored_rows_immutable (e : StripeEvent) (now : Nat) (db : DB) :
    (∀ r ∈ db.rows, r ∈ (storeWebhookEvent e now db).2.rows) ∧
    ((storeWebhookEvent e now db).2.rows = db.rows ∨
      (storeWebhookEvent e now db).2.rows = db.rows ++ [mkRow e now db]) ∧
    (hasId db e.id = true → (storeWebhookEvent e now db).2.rows = db.rows) := by
  cases hh : hasId db e.id with
  | true =>
    refine ⟨?_, Or.inl ?_, fun _ => ?_⟩ <;> simp [storeWebhookEvent, hh]
  | false =>
    refine ⟨?_, Or.inr ?_, fun hc => ?_⟩
    · intro r hr
      simp [storeWebhookEvent, hh, List.mem_append]
      exact Or.inl hr
    · simp [storeWebhookEvent, hh]
    · simp at hc

/-- C8 witness: redelivering `evA` to a table already holding its row
leaves the row list unchanged. -/
theorem stored_rows_immutable_witness :
    (∀ r ∈ dbA.rows, r ∈ (storeWebhookEvent evA 9 dbA).2.rows) ∧
    ((storeWebhookEvent evA 9 dbA).2.rows = dbA.rows ∨
      (storeWebhookEvent evA 9 dbA).2.rows = dbA.rows ++ [mkRow evA 9 dbA]) ∧
    (hasId dbA evA.id = true →
      (storeWebhookEvent evA 9 dbA).2.rows = dbA.rows) :=
  stored_rows_immutable evA 9 dbA

/-- C10.  The `count` field of a successful `/events` response equals
the length of the returned page (the events array after limit and offset
are applied), never the total number of matching rows, and it never
exceeds the limit used for the query. -/
theorem events_count_is_page_length (limitP offsetP : Option String)
    (ord page : List Row) (cnt : Nat) (lim off : Int)
    (h : eventsResponse limitP offsetP ord =
      ⟨200, Body.events page cnt lim off⟩) :
    cnt = page.length ∧ (cnt : Int) ≤ lim := by
  by_cases hL : jsOr (parseQueryInt limitP) 50 < 0
  · simp [eventsResponse, sqlLimitOffset, hL] at h
  · by_cases hO : jsOr (parseQueryInt offsetP) 0 < 0
    · simp [eventsResponse, sqlLimitOffset, hL, hO] at h
    · simp [eventsResponse, sqlLimitOffset, hL, hO] at h
      obtain ⟨hpage, hcnt, hlim, hoff⟩ := h
      have hlen : cnt ≤ (jsOr (parseQueryInt limitP) 50).toNat := by
        rw [← hcnt]
        unfold pageOf
        exact List.length_take_le _ _
      refine ⟨?_, ?_⟩
      · rw [← hpage]
        exact hcnt.symm
      · rw [← hlim]
        omega

/-- C10 witness: a one-row result with the default parameters. -/
theorem events_count_is_page_length_witness :
    (1 : Nat) = [rowA].length ∧ ((1 : Nat) : Int) ≤ 50 :=
  events_count_is_page_length none none [rowA] [rowA] 1 50 0 (by decide)

/-- C6 counterexample.  Pagination input is not always safe: the query
parameter limit equal to the string minus-one parses to the number -1,
which is truthy and is used as given — it is not clamped to a
non-negative value — and the store rejects the negative LIMIT, so the
endpoint answers 500. -/
theorem events_params_counterexample :
    jsOr (parseQueryInt (some "-1")) 50 = -1 ∧
    jsOr (parseQueryInt (some "-1")) 50 < 0 ∧
    eventsResponse (some "-1") none [] =
      ⟨500, Body.errMsg "Failed to fetch events"⟩ := by
  refine ⟨by decide, by decide, by decide⟩

/-- C6 (amended).  Non-numeric limit and offset input is replaced by the
defaults 50 and 0, and whenever the values actually used are
non-negative — in particular for all non-numeric input — the `/events`
operation succeeds with status 200; but negative parsed values are not
clamped, are used as given, and make the query fail (see the
counterexample). -/
theorem events_nonneg_params_ok (limitP offsetP : Option String)
    (ord : List Row)
    (h1 : 0 ≤ jsOr (parseQueryInt limitP) 50)
    (h2 : 0 ≤ jsOr (parseQueryInt offsetP) 0) :
    (eventsResponse limitP offsetP ord).status = 200 ∧
    (parseQueryInt limitP = none → jsOr (parseQueryInt limitP) 50 = 50) ∧
    (parseQueryInt offsetP = none → jsOr (parseQueryInt offsetP) 0 = 0) := by
  refine ⟨?_, fun hn => by simp [jsOr, hn], fun hn => by simp [jsOr, hn]⟩
  simp [eventsResponse, sqlLimitOffset, not_lt.mpr h1, not_lt.mpr h2]

/-- C6 witness: a non-numeric limit and an absent offset. -/
theorem events_nonneg_params_ok_witness :
    (eventsResponse (some "abc") none []).status = 200 ∧
    (parseQueryInt (some "abc") = none →
      jsOr (parseQueryInt (some "abc")) 50 = 50) ∧
    (parseQueryInt none = none → jsOr (parseQueryInt none) 0 = 0) :=
  events_nonneg_params_ok (some "abc") none [] (by decide) (by decide)

/-- C9 counterexample.  Not only strictly positive parsed limits are
used as given: the string minus-three parses to -3, which is truthy, so
the handler uses -3 as the limit (no replacement by the default), even
though -3 is not strictly positive; the store then rejects it. -/
theorem limit_negative_used_counterexample :
    parseQueryInt (some "-3") = some (-3) ∧
    jsOr (parseQueryInt (some "-3")) 50 = -3 ∧
    ¬ (0 < (-3 : Int)) ∧
    (eventsResponse (some "-3") none []).status = 500 := by
  refine ⟨by decide, by decide, by decide, by decide⟩

/-- C9 (amended).  The query parameter limit equal to the string zero
parses to the number 0, which is falsy, so the default limit 50 is used;
every nonzero parsed limit — positive or negative — is used as given. -/
theorem limit_zero_uses_default (p : Option String) (n : Int)
    (hp : parseQueryInt p = some n) (hn : n ≠ 0) :
    jsOr (parseQueryInt (some "0")) 50 = 50 ∧
    jsOr (parseQueryInt p) 50 = n := by
  refine ⟨by decide, ?_⟩
  rw [hp]
  simp [jsOr, hn]

/-- C9 witness: the parsed limit 7 is used as given. -/
theorem limit_zero_uses_default_witness :
    jsOr (parseQueryInt (some "0")) 50 = 50 ∧
    jsOr (parseQueryInt (some "7")) 50 = 7 :=
  limit_zero_uses_default (some "7") 7 (by decide) (by decide)

/-- C7 counterexample.  The type filter is not applied for every filter
string: with the empty string as filter (a falsy value in JS), the
`WHERE` clause is skipped, so a row whose `event_type` differs from the
filter appears in the result. -/
theorem typeFilter_empty_counterexample :
    selectRows dbA (some "") = [rowA] ∧
    rowA.event_type ≠ "" ∧
    legalOrder (selectRows dbA (some "")) [rowA] ∧
    eventsResponse none none [rowA] =
      ⟨200, Body.events [rowA] 1 50 0⟩ := by
  refine ⟨rfl, by decide, ⟨by decide, by decide⟩, by decide⟩

/-- C7 (amended).  For every nonempty filter string, the filtered query
result contains exactly the stored rows whose `event_type` equals the
filter, and every page of it contains only such rows; the empty filter
string instead disables the filter. -/
theorem events_typeFilter_correct (db : DB) (t : String) (ord : List Row)
    (ht : t ≠ "") (h : legalOrder (selectRows db (some t)) ord) :
    (∀ r, r ∈ ord ↔ (r ∈ db.rows ∧ r.event_type = t)) ∧
    (∀ k off r, r ∈ pageOf ord k off → r.event_type = t) := by
  have hsel : selectRows db (some t) =
      db.rows.filter (fun r => r.event_type == t) := by
    simp [selectRows, ht]
  have hmem : ∀ r, r ∈ ord ↔ (r ∈ db.rows ∧ r.event_type = t) := by
    intro r
    rw [h.1.mem_iff, hsel, List.mem_filter]
    simp
  refine ⟨hmem, fun k off r hr => ?_⟩
  have hro : r ∈ ord := by
    unfold pageOf at hr
    exact List.mem_of_mem_drop (List.mem_of_mem_take hr)
  exact ((hmem r).mp hro).2

/-- C7 witness: filtering the two-row table for the type of `rowC`. -/
theorem events_typeFilter_correct_witness :
    (∀ r, r ∈ [rowC] ↔ (r ∈ dbCA.rows ∧ r.event_type = "customer.created")) ∧
    (∀ k off r, r ∈ pageOf [rowC] k off →
      r.event_type = "customer.created") :=
  events_typeFilter_correct dbCA "customer.created" [rowC] (by decide)
    ⟨by decide, by decide⟩

/-- Two results of `ORDER BY created_at DESC` that are permutations of
each other are equal when the `created_at` keys are pairwise distinct:
the ordering is then strict, so the sorted arrangement is unique. -/
lemma sorted_perm_eq_of_created_nodup :
    ∀ (l1 l2 : List Row), l1.Perm l2 → l1.Sorted createdDesc →
      l2.Sorted createdDesc → (l1.map Row.created_at).Nodup → l1 = l2 := by
  intro l1
  induction l1 with
  | nil =>
    intro l2 hp _ _ _
    exact (hp.symm.eq_nil).symm
  | cons a t1 ih =>
    intro l2 hp hs1 hs2 hnd
    cases l2 with
    | nil => exact absurd hp.eq_nil (by simp)
    | cons b t2 =>
      have hmem : a ∈ b :: t2 := hp.mem_iff.mp (List.mem_cons_self a t1)
      have hs1' := List.sorted_cons.mp hs1
      have hs2' := List.sorted_cons.mp hs2
      have hndc : a.created_at ∉ t1.map Row.created_at ∧
          (t1.map Row.created_at).Nodup := by
        have hnd' := hnd
        rw [List.map_cons, List.nodup_cons] at hnd'
        exact hnd'
      have hab : a = b := by
        rcases List.mem_cons.mp hmem with h | hat2
        · exact h
        · have h1 : a.created_at ≤ b.created_at := hs2'.1 a hat2
          have hbmem : b ∈ a :: t1 := hp.symm.mem_iff.mp (List.mem_cons_self b t2)
          rcases List.mem_cons.mp hbmem with h | hbt1
          · exact h.symm
          · have h2 : b.created_at ≤ a.created_at := hs1'.1 b hbt1
            have heq : a.created_at = b.created_at := le_antisymm h1 h2
            exfalso
            exact hndc.1 (by
              rw [heq]
              exact List.mem_map.mpr ⟨b, hbt1, rfl⟩)
      subst hab
      have hpt : t1.Perm t2 := hp.cons_inv
      rw [ih t2 hpt hs1'.2 hs2'.2 hndc.2]

/-- C5 counterexample.  The events query orders by `created_at`
descending only — there is no surrogate-id tie-break — so with two rows
sharing a `created_at` value both `[rowA, rowB]` (ids ascending on the
tie) and `[rowB, rowA]` are legal results over the same table; the
first violates the claimed id-descending tie order, and pages taken from
the two legal results overlap: `rowA` is both the page at limit 1 offset
0 of one result and the page at limit 1 offset 1 of the other, so the
two pages do not partition the rows. -/
theorem events_order_counterexample :
    legalOrder (selectRows dbAB none) [rowA, rowB] ∧
    ¬ List.Sorted tieDesc [rowA, rowB] ∧
    legalOrder (selectRows dbAB none) [rowB, rowA] ∧
    pageOf [rowA, rowB] 1 0 = [rowA] ∧
    pageOf [rowB, rowA] 1 1 = [rowA] := by
  refine ⟨⟨by decide, by decide⟩, by decide, ⟨by decide, by decide⟩,
    by decide, by decide⟩

/-- C5 (amended).  The events query orders by `received_at` descending
with no specified tie order.  When the selected rows have pairwise
distinct `received_at` values the legal result is unique, and the pages
at limit k offset 0 and limit k offset k partition the 2k most recent
rows: concatenated they are exactly the first 2k rows, they share no
row, and when at least 2k rows are stored each page has exactly k
rows. -/
theorem events_order_deterministic_when_distinct
    (db : DB) (tp : Option String) (ord1 ord2 : List Row) (k : Nat)
    (hnd : ((selectRows db tp).map Row.created_at).Nodup)
    (h1 : legalOrder (selectRows db tp) ord1)
    (h2 : legalOrder (selectRows db tp) ord2) :
    ord1 = ord2 ∧
    pageOf ord1 k 0 ++ pageOf ord2 k k = ord1.take (2 * k) ∧
    (∀ r ∈ pageOf ord1 k 0, r ∉ pageOf ord2 k k) ∧
    (2 * k ≤ ord1.length →
      (pageOf ord1 k 0).length = k ∧ (pageOf ord2 k k).length = k) := by
  have hp : ord1.Perm ord2 := h1.1.trans h2.1.symm
  have hnd1 : (ord1.map Row.created_at).Nodup :=
    ((h1.1.map Row.created_at).nodup_iff).mpr hnd
  have heq : ord1 = ord2 :=
    sorted_perm_eq_of_created_nodup ord1 ord2 hp h1.2 h2.2 hnd1
  subst heq
  refine ⟨rfl, ?_, ?_, ?_⟩
  · unfold pageOf
    simp only [List.drop_zero]
    have h2k : 2 * k = k + k := by omega
    rw [h2k, List.take_drop]
    have htk : ord1.take k = (ord1.take (k + k)).take k := by
      rw [List.take_take, Nat.min_eq_left (Nat.le_add_right k k)]
    rw [htk, List.take_append_drop]
  · have hnodup : ord1.Nodup := hnd1.of_map
    intro r hr hr2
    unfold pageOf at hr hr2
    simp only [List.drop_zero] at hr
    exact (List.disjoint_take_drop hnodup (le_refl k)) hr
      (List.mem_of_mem_take hr2)
  · intro hlen
    unfold pageOf
    simp only [List.drop_zero, List.length_take, List.length_drop]
    omega

/-- C5 witness: the two-row table with distinct `received_at` values and
k = 1. -/
theorem events_order_deterministic_witness :
    [rowC, rowA] = [rowC, rowA] ∧
    pageOf [rowC, rowA] 1 0 ++ pageOf [rowC, rowA] 1 1 =
      [rowC, rowA].take (2 * 1) ∧
    (∀ r ∈ pageOf [rowC, rowA] 1 0, r ∉ pageOf [rowC, rowA] 1 1) ∧
    (2 * 1 ≤ [rowC, rowA].length →
      (pageOf [rowC, rowA] 1 0).length = 1 ∧
      (pageOf [rowC, rowA] 1 1).length = 1) :=
  events_order_deterministic_when_distinct dbCA none [rowC, rowA]
    [rowC, rowA] 1 (by decide) ⟨by decide, by decide⟩ ⟨by decide, by decide⟩

end StripeWebhook
